import Mathlib

/-!
Verification of the toolset registry and MCP tool handlers of
k8s-mcp-server against its natural-language specification.

The Go source is shallowly embedded:

* `pkg/toolsets/toolsets.go` — `Toolset`, `ToolsetGroup` and their methods
  become Lean structures with explicit state passing; the Go
  `map[string]*Toolset` becomes an association list updated in place
  (`mapInsert`), which matches the observable lookup/update behaviour of a
  Go map holding each pointer under a single key.
* The MCP server is modelled by the list of tools registered with it, in
  registration order; `server.AddTool` appends.
* Tool handlers (`pkg/k8s/resources.go`, `pkg/k8s/resources/pod/tool.go`,
  `pkg/k8s/resources/deployment/tool.go`,
  `pkg/k8s/resources/registry.go`) become total functions from the request
  argument map and response oracles for the Kubernetes client and
  `json.Marshal` to the Go return pair `(*mcp.CallToolResult, error)`,
  together with the trace of Kubernetes client calls the handler issued.
* A finite IEEE-754 float64 value is represented by the rational number it
  denotes; `int32(f)` truncates toward zero, and Go leaves out-of-range
  conversions implementation-defined but always within int32, which the
  model realises by clamping — the only use of the conversion is the
  comparison `float64(int32(f)) == f`, whose outcome is the same for every
  implementation-defined choice.
-/

namespace K8sMCP

/-- ServerTool pairs an MCP tool with its handler
(`toolsets.NewServerTool`); for registration claims only the tool's
identity is observable, so it is carried as the tool name. -/
structure ServerTool where
  toolName : String
deriving DecidableEq, Repr

/-- Toolset from `pkg/toolsets/toolsets.go`: a named group of read tools
and write tools with an enabled flag and a read-only flag. -/
structure Toolset where
  Name : String
  Description : String
  Enabled : Bool
  readOnly : Bool
  writeTools : List ServerTool
  readTools : List ServerTool
deriving DecidableEq, Repr

/-- NewToolset: fresh toolset, disabled and not read-only, with no tools. -/
def NewToolset (name description : String) : Toolset :=
  { Name := name, Description := description, Enabled := false,
    readOnly := false, writeTools := [], readTools := [] }

/-- GetActiveTools returns the read tools, plus the write tools when not
read-only, when the toolset is enabled, and nil otherwise. -/
def Toolset.GetActiveTools (t : Toolset) : List ServerTool :=
  if t.Enabled then
    if t.readOnly then t.readTools
    else t.readTools ++ t.writeTools
  else []

/-- GetAvailableTools returns the read tools, plus the write tools when
the toolset is not read-only, regardless of the enabled flag. -/
def Toolset.GetAvailableTools (t : Toolset) : List ServerTool :=
  if t.readOnly then t.readTools
  else t.readTools ++ t.writeTools

/-- The MCP server is observed through the list of tools registered with
it, in registration order. -/
abbrev MCPServer : Type := List ServerTool

/-- AddTool (`server.MCPServer.AddTool`) registers one tool. -/
def AddTool (s : MCPServer) (tool : ServerTool) : MCPServer :=
  s ++ [tool]

/-- RegisterTools on a Toolset: nothing when disabled; otherwise every
read tool is added, and every write tool is added only when the toolset
is not read-only. -/
def Toolset.RegisterTools (t : Toolset) (s : MCPServer) : MCPServer :=
  if !t.Enabled then s
  else
    let s1 := t.readTools.foldl AddTool s
    if !t.readOnly then t.writeTools.foldl AddTool s1 else s1

/-- SetReadOnly sets the toolset to read-only mode. -/
def Toolset.SetReadOnly (t : Toolset) : Toolset :=
  { t with readOnly := true }

/-- AddReadTool appends a tool to the read tools. -/
def Toolset.AddReadTool (t : Toolset) (tool : ServerTool) : Toolset :=
  { t with readTools := t.readTools ++ [tool] }

/-- AddWriteTool appends a tool to the write tools, unless the toolset is
read-only, in which case the tool is silently dropped. -/
def Toolset.AddWriteTool (t : Toolset) (tool : ServerTool) : Toolset :=
  if !t.readOnly then { t with writeTools := t.writeTools ++ [tool] }
  else t

/-- Lookup in the association-list model of `map[string]*Toolset`. -/
def mapLookup (m : List (String × Toolset)) (k : String) : Option Toolset :=
  match m with
  | [] => none
  | (k1, v) :: rest => if k1 = k then some v else mapLookup rest k

/-- Insert-or-update in the association-list model of
`map[string]*Toolset`: the first binding of the key is replaced, matching
`m[k] = v` on a Go map. -/
def mapInsert (m : List (String × Toolset)) (k : String) (v : Toolset) :
    List (String × Toolset) :=
  match m with
  | [] => [(k, v)]
  | (k1, v1) :: rest =>
    if k1 = k then (k, v) :: rest else (k1, v1) :: mapInsert rest k v

/-- ToolsetGroup from `pkg/toolsets/toolsets.go`. -/
structure ToolsetGroup where
  Toolsets : List (String × Toolset)
  everythingOn : Bool
  readOnly : Bool
deriving DecidableEq, Repr

/-- NewToolsetGroup: empty map, `everythingOn` false, read-only flag as
given. -/
def NewToolsetGroup (readOnly : Bool) : ToolsetGroup :=
  { Toolsets := [], everythingOn := false, readOnly := readOnly }

/-- AddToolset: when the group is read-only the toolset is first switched
to read-only (`ts.SetReadOnly()`), then stored under its name. -/
def ToolsetGroup.AddToolset (tg : ToolsetGroup) (ts : Toolset) : ToolsetGroup :=
  let ts1 := if tg.readOnly then ts.SetReadOnly else ts
  { tg with Toolsets := mapInsert tg.Toolsets ts1.Name ts1 }

/-- IsEnabled: true for every name when `everythingOn`; otherwise the
enabled flag of the named toolset, false when absent. -/
def ToolsetGroup.IsEnabled (tg : ToolsetGroup) (name : String) : Bool :=
  if tg.everythingOn then true
  else
    match mapLookup tg.Toolsets name with
    | none => false
    | some feature => feature.Enabled

/-- EnableToolset: error when the name is not in the map, otherwise set
the toolset's Enabled flag and store it back. The group state is returned
alongside the optional error because the Go receiver is mutated in
place. -/
def ToolsetGroup.EnableToolset (tg : ToolsetGroup) (name : String) :
    ToolsetGroup × Option String :=
  match mapLookup tg.Toolsets name with
  | none => (tg, some ("toolset " ++ name ++ " does not exist"))
  | some toolset =>
    ({ tg with Toolsets := mapInsert tg.Toolsets name { toolset with Enabled := true } },
     none)

/-- First loop of EnableToolsets: walk the names, set `everythingOn` and
break at the first "all", stop at the first EnableToolset error. -/
def enableLoop (tg : ToolsetGroup) : List String → ToolsetGroup × Option String
  | [] => (tg, none)
  | name :: rest =>
    if name = "all" then ({ tg with everythingOn := true }, none)
    else
      match tg.EnableToolset name with
      | (tg1, some e) => (tg1, some e)
      | (tg1, none) => enableLoop tg1 rest

/-- Second loop of EnableToolsets: enable every name in the key list,
stopping at the first error. -/
def enableAll (tg : ToolsetGroup) : List String → ToolsetGroup × Option String
  | [] => (tg, none)
  | k :: rest =>
    match tg.EnableToolset k with
    | (tg1, some e) => (tg1, some e)
    | (tg1, none) => enableAll tg1 rest

/-- EnableToolsets: run the first loop over the given names; on success,
if `everythingOn` is set, enable every registered toolset. -/
def ToolsetGroup.EnableToolsets (tg : ToolsetGroup) (names : List String) :
    ToolsetGroup × Option String :=
  match enableLoop tg names with
  | (tg1, some e) => (tg1, some e)
  | (tg1, none) =>
    if tg1.everythingOn then enableAll tg1 (tg1.Toolsets.map Prod.fst)
    else (tg1, none)

/-- RegisterTools on a ToolsetGroup: register every toolset of the
group. -/
def ToolsetGroup.RegisterTools (tg : ToolsetGroup) (s : MCPServer) : MCPServer :=
  tg.Toolsets.foldl (fun srv p => p.2.RegisterTools srv) s

/-- Modelled from the spec: the variadic chaining method `AddReadTools`
used by `InitToolsets` is declared on a toolsets version that is not under
src; per the singular `Toolset.AddReadTool` in pkg/toolsets/toolsets.go it
appends each given tool to the read tools. -/
def Toolset.AddReadTools (t : Toolset) (tools : List ServerTool) : Toolset :=
  tools.foldl Toolset.AddReadTool t

/-- Modelled from the spec: the variadic chaining method `AddWriteTools`
used by `InitToolsets` is declared on a toolsets version that is not under
src; per the singular `Toolset.AddWriteTool` in pkg/toolsets/toolsets.go
and the spec's read-only gating, it appends each given tool to the write
tools unless the toolset is read-only. -/
def Toolset.AddWriteTools (t : Toolset) (tools : List ServerTool) : Toolset :=
  tools.foldl Toolset.AddWriteTool t

/-- Read tools of the `k8s_resources` toolset in the order `InitToolsets`
lists them; note that `scale_deployment` appears here. -/
def k8sResourcesReadTools : List ServerTool :=
  [⟨"get_pod"⟩, ⟨"list_pods"⟩, ⟨"get_pod_logs"⟩, ⟨"get_deployment"⟩,
   ⟨"list_deployments"⟩, ⟨"scale_deployment"⟩, ⟨"get_service"⟩,
   ⟨"list_services"⟩, ⟨"get_configmap"⟩, ⟨"list_configmaps"⟩,
   ⟨"list_namespaces"⟩, ⟨"list_nodes"⟩]

/-- Write tools of the `k8s_resources` toolset as `InitToolsets` lists
them. -/
def k8sResourcesWriteTools : List ServerTool :=
  [⟨"delete_pod"⟩, ⟨"scale_deployment"⟩]

/-- InitToolsets: build the group with the given read-only flag, build the
`k8s_resources` toolset by chaining `AddReadTools` and `AddWriteTools`,
add it to the group, and enable the requested toolsets; a nil group is
returned together with the error when enabling fails. The tool
constructors (`GetPod`, ..., `DeletePod`) are represented by the names of
the tools they build. -/
def InitToolsets (passedToolsets : List String) (readOnly : Bool) :
    Option ToolsetGroup × Option String :=
  let tsg := NewToolsetGroup readOnly
  let resources :=
    ((NewToolset "k8s_resources" "K8s resources related tools").AddReadTools
        k8sResourcesReadTools).AddWriteTools k8sResourcesWriteTools
  let tsg := tsg.AddToolset resources
  match tsg.EnableToolsets passedToolsets with
  | (_, some e) => (none, some e)
  | (tg1, none) => (some tg1, none)

/-- Operations a client of a Toolset may perform after the toolset is in a
group; `RegisterTools` reads but never modifies the toolset. -/
inductive ToolsetOp where
  | addRead (tool : ServerTool)
  | addWrite (tool : ServerTool)
  | register
deriving DecidableEq, Repr

/-- Effect of one ToolsetOp on the toolset state. -/
def applyOp (t : Toolset) (op : ToolsetOp) : Toolset :=
  match op with
  | .addRead tool => t.AddReadTool tool
  | .addWrite tool => t.AddWriteTool tool
  | .register => t

/-- Effect of a sequence of ToolsetOps on the toolset state. -/
def applyOps (t : Toolset) (ops : List ToolsetOp) : Toolset :=
  ops.foldl applyOp t

/-- Value of a request argument (`map[string]interface{}`), as produced by
JSON decoding or by the tests, which also place `int64` values in the map.
A finite float64 is represented by the rational number it denotes. -/
inductive JValue where
  | str (s : String)
  | num (q : ℚ)
  | boolVal (b : Bool)
  | intVal (n : Int)
deriving DecidableEq, Repr

/-- Request argument map (`request.Params.Arguments`). -/
abbrev Request : Type := List (String × JValue)

/-- Lookup of a request argument. -/
def lookupArg (req : Request) (p : String) : Option JValue :=
  match req with
  | [] => none
  | (k, v) :: rest => if k = p then some v else lookupArg rest p

/-- Modelled from the spec: the generic helper `RequiredParam[T]`
(`requiredParam` in pkg/k8s, `toolsets.RequiredParam` elsewhere) is not
under src; its behaviour is fixed by TestRequiredParam in
pkg/toolsets/toolsets_test.go: an absent argument errors "missing required
parameter", a wrongly-typed one errors "is not of type", and an argument
equal to the zero value of T is reported exactly like an absent one. This
is the instance at T = string, whose zero value is the empty string. -/
def RequiredParamString (req : Request) (p : String) : Except String String :=
  match lookupArg req p with
  | none => .error ("missing required parameter: " ++ p)
  | some (.str s) =>
    if s = "" then .error ("missing required parameter: " ++ p)
    else .ok s
  | some _ => .error ("parameter " ++ p ++ " is not of type string")

/-- Modelled from the spec: instance of the generic `RequiredParam[T]` at
T = float64 (see `RequiredParamString`); the zero value of float64 is 0,
so a zero argument is reported as a missing parameter. -/
def RequiredParamFloat (req : Request) (p : String) : Except String ℚ :=
  match lookupArg req p with
  | none => .error ("missing required parameter: " ++ p)
  | some (.num q) =>
    if q = 0 then .error ("missing required parameter: " ++ p)
    else .ok q
  | some _ => .error ("parameter " ++ p ++ " is not of type float64")

/-- Modelled from the spec: `OptionalParam[T]` at T = string, fixed by
TestOptionalParam in pkg/toolsets/toolsets_test.go: an absent argument
yields the zero value with no error, a wrongly-typed one errors "is not of
type". -/
def OptionalParamString (req : Request) (p : String) : Except String String :=
  match lookupArg req p with
  | none => .ok ""
  | some (.str s) => .ok s
  | some _ => .error ("parameter " ++ p ++ " is not of type string")

/-- Modelled from the spec: `OptionalParam[T]` at T = int64 (see
`OptionalParamString`); only a value stored as an int64 passes the type
assertion — in particular a JSON number, decoded as float64, does not. -/
def OptionalParamInt64 (req : Request) (p : String) : Except String Int :=
  match lookupArg req p with
  | none => .ok 0
  | some (.intVal n) => .ok n
  | some _ => .error ("parameter " ++ p ++ " is not of type int64")

/-- Result envelope of an MCP tool call: `mcp.NewToolResultError` or
`mcp.NewToolResultText`. -/
inductive CallToolResult where
  | errorResult (msg : String)
  | textResult (text : String)
deriving DecidableEq, Repr

/-- Go return pair `(*mcp.CallToolResult, error)` of a tool handler; the
first component is the possibly-nil result, the second the possibly-nil
error message. -/
abbrev GoReturn : Type := Option CallToolResult × Option String

/-- Deployment object: `Spec.Replicas` (a nullable int32, carried as an
integer) plus the rest of the object, opaque to the handlers. -/
structure Deployment where
  replicas : Option Int
  payload : String
deriving DecidableEq, Repr

/-- Kubernetes client calls a handler may issue, recorded in order. -/
inductive ClientCall where
  | podGet (ns name : String)
  | podDelete (ns name : String) (gracePeriodSeconds : Option Int)
  | namespaceList (fieldSelector labelSelector : String)
  | deploymentGet (ns name : String)
  | deploymentUpdate (ns : String) (d : Deployment)
deriving DecidableEq, Repr

/-- Outcome of a handler run: the Go return pair and the trace of client
calls issued. -/
abbrev HandlerRun : Type := GoReturn × List ClientCall

/-- Truncation toward zero of a rational number. -/
def ratTrunc (q : ℚ) : Int :=
  if 0 ≤ q then ⌊q⌋ else ⌈q⌉

/-- Smallest int32 value. -/
def i32min : Int := -2147483648

/-- Largest int32 value. -/
def i32max : Int := 2147483647

/-- Go conversion `int32(f)` of a finite float64: truncation toward zero
when the truncated value fits in int32; an out-of-range conversion is
implementation-defined in Go but always yields some int32, modelled by
clamping, which leaves the only observation made of it — the comparison
`float64(int32(f)) == f` — unchanged under every implementation-defined
choice. -/
def goInt32ofFloat (q : ℚ) : Int :=
  if ratTrunc q < i32min then i32min
  else if i32max < ratTrunc q then i32max
  else ratTrunc q

/-- A rational (finite float64) is exactly an int32 value. -/
def Int32Exact (q : ℚ) : Prop :=
  q.den = 1 ∧ i32min ≤ q.num ∧ q.num ≤ i32max

instance (q : ℚ) : Decidable (Int32Exact q) := by
  unfold Int32Exact; infer_instance

/-- Handler of the `get_pod` tool (`GetPod` in pkg/k8s/resources.go and
`Handler.Get` in pkg/k8s/resources/pod/tool.go, which have the same body):
required namespace and name, one `Pods(ns).Get` call, JSON response.
`gc` is the outcome of `getClient(ctx)`, `podGet` the response of the
client call, `marshal` the outcome of `json.Marshal` on the pod type α. -/
def GetPodHandler {α : Type} (gc : Except String Unit)
    (podGet : String → String → Except String α)
    (marshal : α → Except String String) (req : Request) : HandlerRun :=
  match RequiredParamString req "namespace" with
  | .error e => ((some (.errorResult e), none), [])
  | .ok ns =>
    match RequiredParamString req "name" with
    | .error e => ((some (.errorResult e), none), [])
    | .ok nm =>
      match gc with
      | .error e => ((none, some ("failed to get Kubernetes client: " ++ e)), [])
      | .ok _ =>
        match podGet ns nm with
        | .error e =>
          ((some (.errorResult ("failed to get pod: " ++ e)), none), [.podGet ns nm])
        | .ok pod =>
          match marshal pod with
          | .error e =>
            ((none, some ("failed to marshal response: " ++ e)), [.podGet ns nm])
          | .ok r => ((some (.textResult r), none), [.podGet ns nm])

/-- Handler of the `list_namespaces` tool (`Handler.List` in the namespace
resource handler, pkg/k8s/resources/registry.go file group): optional
field and label selectors, one `Namespaces().List` call, JSON response. -/
def ListNamespacesHandler {α : Type} (gc : Except String Unit)
    (nsList : String → String → Except String α)
    (marshal : α → Except String String) (req : Request) : HandlerRun :=
  match OptionalParamString req "fieldSelector" with
  | .error e => ((some (.errorResult e), none), [])
  | .ok fs =>
    match OptionalParamString req "labelSelector" with
    | .error e => ((some (.errorResult e), none), [])
    | .ok ls =>
      match gc with
      | .error e => ((none, some ("failed to get Kubernetes client: " ++ e)), [])
      | .ok _ =>
        match nsList fs ls with
        | .error e =>
          ((some (.errorResult ("failed to list namespaces: " ++ e)), none),
           [.namespaceList fs ls])
        | .ok obj =>
          match marshal obj with
          | .error e =>
            ((none, some ("failed to marshal response: " ++ e)), [.namespaceList fs ls])
          | .ok r => ((some (.textResult r), none), [.namespaceList fs ls])

/-- Handler of the `scale_deployment` tool (`ScaleDeployment` in
pkg/k8s/resources.go and `Handler.Scale` in
pkg/k8s/resources/deployment/tool.go, same body): required namespace, name
and numeric replicas; `int32(replicasFloat)` must round-trip back to the
float; then one `Deployments(ns).Get`, the replica count is set, and one
`Update` issues; the updated deployment is returned as JSON. -/
def ScaleDeploymentHandler (gc : Except String Unit)
    (deployGet : String → String → Except String Deployment)
    (deployUpdate : String → Deployment → Except String Deployment)
    (marshal : Deployment → Except String String) (req : Request) : HandlerRun :=
  match RequiredParamString req "namespace" with
  | .error e => ((some (.errorResult e), none), [])
  | .ok ns =>
    match RequiredParamString req "name" with
    | .error e => ((some (.errorResult e), none), [])
    | .ok nm =>
      match RequiredParamFloat req "replicas" with
      | .error e => ((some (.errorResult e), none), [])
      | .ok replicasFloat =>
        let replicas := goInt32ofFloat replicasFloat
        if (replicas : ℚ) ≠ replicasFloat then
          ((some (.errorResult "replicas must be an integer"), none), [])
        else
          match gc with
          | .error e => ((none, some ("failed to get Kubernetes client: " ++ e)), [])
          | .ok _ =>
            match deployGet ns nm with
            | .error e =>
              ((some (.errorResult ("failed to get deployment: " ++ e)), none),
               [.deploymentGet ns nm])
            | .ok d =>
              let d1 := { d with replicas := some replicas }
              match deployUpdate ns d1 with
              | .error e =>
                ((some (.errorResult ("failed to scale deployment: " ++ e)), none),
                 [.deploymentGet ns nm, .deploymentUpdate ns d1])
              | .ok ud =>
                match marshal ud with
                | .error e =>
                  ((none, some ("failed to marshal response: " ++ e)),
                   [.deploymentGet ns nm, .deploymentUpdate ns d1])
                | .ok r =>
                  ((some (.textResult r), none),
                   [.deploymentGet ns nm, .deploymentUpdate ns d1])

/-- Parameter type a tool schema declares. -/
inductive ParamType where
  | stringT
  | numberT
  | booleanT
deriving DecidableEq, Repr

/-- One parameter of a tool schema: name, declared type, required flag. -/
structure ParamSpec where
  pname : String
  ptype : ParamType
  preq : Bool
deriving DecidableEq, Repr

/-- Schema of the `delete_pod` tool from `DeletePod` in
pkg/k8s/resources.go: namespace and name are required strings, and
gracePeriodSeconds is declared with `mcp.WithBoolean`. -/
def deletePodToolParams : List ParamSpec :=
  [⟨"namespace", .stringT, true⟩, ⟨"name", .stringT, true⟩,
   ⟨"gracePeriodSeconds", .booleanT, false⟩]

/-- Handler of the `delete_pod` tool (`DeletePod` in
pkg/k8s/resources.go): required namespace and name, optional
gracePeriodSeconds extracted as int64; the delete options carry a
GracePeriodSeconds pointer exactly when the extracted value is positive;
one `Pods(ns).Delete` call; a fixed success text. -/
def DeletePodHandler (gc : Except String Unit)
    (podDelete : String → String → Option Int → Except String Unit)
    (req : Request) : HandlerRun :=
  match RequiredParamString req "namespace" with
  | .error e => ((some (.errorResult e), none), [])
  | .ok ns =>
    match RequiredParamString req "name" with
    | .error e => ((some (.errorResult e), none), [])
    | .ok nm =>
      match OptionalParamInt64 req "gracePeriodSeconds" with
      | .error e => ((some (.errorResult e), none), [])
      | .ok gracePeriodSeconds =>
        match gc with
        | .error e => ((none, some ("failed to get Kubernetes client: " ++ e)), [])
        | .ok _ =>
          let deleteOptions :=
            if 0 < gracePeriodSeconds then some gracePeriodSeconds else none
          match podDelete ns nm deleteOptions with
          | .error e =>
            ((some (.errorResult ("failed to delete pod: " ++ e)), none),
             [.podDelete ns nm deleteOptions])
          | .ok _ =>
            ((some (.textResult
                ("Pod " ++ nm ++ " in namespace " ++ ns ++ " deleted successfully")),
              none),
             [.podDelete ns nm deleteOptions])

/-- Go convention visible in every handler: exactly one of the returned
result and the returned error is non-nil. -/
def ResultErrorDichotomy (r : GoReturn) : Prop :=
  (r.1.isSome = true ∧ r.2 = none) ∨ (r.1 = none ∧ r.2.isSome = true)

theorem foldl_AddTool (l : List ServerTool) (s : MCPServer) :
    l.foldl AddTool s = s ++ l := by
  induction l generalizing s with
  | nil => simp
  | cons a l ih => simp [AddTool, ih]

theorem mapLookup_insert (m : List (String × Toolset)) (k : String) (v : Toolset)
    (k1 : String) :
    mapLookup (mapInsert m k v) k1 = if k = k1 then some v else mapLookup m k1 := by
  induction m with
  | nil =>
    by_cases h : k = k1 <;> simp [mapInsert, mapLookup, h]
  | cons p rest ih =>
    obtain ⟨k2, v2⟩ := p
    by_cases h2 : k2 = k
    · subst h2
      by_cases h1 : k2 = k1 <;> simp [mapInsert, mapLookup, h1]
    · by_cases h1 : k2 = k1
      · subst h1
        have : ¬ k = k2 := fun h => h2 h.symm
        simp [mapInsert, mapLookup, h2, this]
      · simp [mapInsert, mapLookup, h2, h1, ih]

theorem mapLookup_none_iff (m : List (String × Toolset)) (k : String) :
    mapLookup m k = none ↔ k ∉ m.map Prod.fst := by
  induction m with
  | nil => simp [mapLookup]
  | cons p rest ih =>
    obtain ⟨k1, v1⟩ := p
    by_cases h : k1 = k
    · subst h; simp [mapLookup]
    · have h2 : ¬ k = k1 := fun hh => h hh.symm
      simp [mapLookup, h, h2, ih]

/-- C2: for every Toolset, the write tools are exposed by GetActiveTools
and registered by RegisterTools exactly when the toolset is enabled and
not read-only, the read tools exactly when it is enabled, and a disabled
toolset exposes the empty list and registers nothing. -/
theorem toolset_tool_exposure (t : Toolset) (s : MCPServer) :
    (t.Enabled = false → t.GetActiveTools = [] ∧ t.RegisterTools s = s)
    ∧ (t.Enabled = true →
        t.GetActiveTools = t.readTools ++ (if t.readOnly then [] else t.writeTools)
        ∧ t.RegisterTools s = (s ++ t.readTools) ++ (if t.readOnly then [] else t.writeTools))
    ∧ (∀ w, w ∈ t.writeTools → w ∉ t.readTools →
        (w ∈ t.GetActiveTools ↔ t.Enabled = true ∧ t.readOnly = false))
    ∧ (∀ r, r ∈ t.readTools → (r ∈ t.GetActiveTools ↔ t.Enabled = true)) := by
  cases hE : t.Enabled <;> cases hR : t.readOnly <;>
    simp [Toolset.GetActiveTools, Toolset.RegisterTools, hE, hR, foldl_AddTool]
  exact ⟨fun w hw _ => Or.inr hw, fun r hr => Or.inl hr⟩

/-- Witness for the C2 theorem at a concrete toolset and server. -/
theorem toolset_tool_exposure_witness :
    ({ Name := "t", Description := "", Enabled := true, readOnly := true,
       writeTools := [⟨"w"⟩], readTools := [⟨"r"⟩] } : Toolset).GetActiveTools
      = [⟨"r"⟩] := by
  have h := toolset_tool_exposure
    { Name := "t", Description := "", Enabled := true, readOnly := true,
      writeTools := [⟨"w"⟩], readTools := [⟨"r"⟩] } []
  simpa using (h.2.1 (by decide)).1

theorem mapLookup_isSome_of_mem_keys (m : List (String × Toolset)) (k : String)
    (h : k ∈ m.map Prod.fst) : (mapLookup m k).isSome = true := by
  rcases hl : mapLookup m k with _ | ts
  · exact absurd h ((mapLookup_none_iff m k).mp hl)
  · rfl

theorem EnableToolset_found (tg : ToolsetGroup) (name : String) (ts : Toolset)
    (h : mapLookup tg.Toolsets name = some ts) :
    tg.EnableToolset name =
      ({ tg with Toolsets := mapInsert tg.Toolsets name { ts with Enabled := true } },
       none) := by
  simp [ToolsetGroup.EnableToolset, h]

theorem EnableToolset_missing (tg : ToolsetGroup) (name : String)
    (h : mapLookup tg.Toolsets name = none) :
    tg.EnableToolset name = (tg, some ("toolset " ++ name ++ " does not exist")) := by
  simp [ToolsetGroup.EnableToolset, h]

theorem enableLoop_all_everythingOn (names : List String) :
    ∀ tg : ToolsetGroup, "all" ∈ names → (enableLoop tg names).2 = none →
      (enableLoop tg names).1.everythingOn = true := by
  induction names with
  | nil => intro tg h; simp at h
  | cons n rest ih =>
    intro tg hmem hok
    by_cases hall : n = "all"
    · subst hall; simp [enableLoop]
    · rcases List.mem_cons.mp hmem with h | h
      · exact absurd h.symm hall
      · rcases h1 : tg.EnableToolset n with ⟨tg1, e⟩
        rcases e with _ | e
        · have hred : enableLoop tg (n :: rest) = enableLoop tg1 rest := by
            simp [enableLoop, hall, h1]
          rw [hred] at hok ⊢
          exact ih tg1 h hok
        · have hred : enableLoop tg (n :: rest) = (tg1, some e) := by
            simp [enableLoop, hall, h1]
          rw [hred] at hok
          simp at hok

theorem enableAll_spec (ks : List String) :
    ∀ tg : ToolsetGroup,
      (∀ k ∈ ks, (mapLookup tg.Toolsets k).isSome = true) →
      (enableAll tg ks).2 = none
      ∧ (enableAll tg ks).1.everythingOn = tg.everythingOn
      ∧ (∀ n, n ∉ ks → mapLookup (enableAll tg ks).1.Toolsets n = mapLookup tg.Toolsets n)
      ∧ (∀ n, n ∈ ks → ∃ ts, mapLookup (enableAll tg ks).1.Toolsets n = some ts
          ∧ ts.Enabled = true) := by
  induction ks with
  | nil => intro tg _; simp [enableAll]
  | cons k rest ih =>
    intro tg hks
    obtain ⟨ts, hts⟩ : ∃ ts, mapLookup tg.Toolsets k = some ts := by
      rcases hl : mapLookup tg.Toolsets k with _ | ts
      · have := hks k (List.mem_cons_self k rest); rw [hl] at this; simp at this
      · exact ⟨ts, rfl⟩
    set tg1 : ToolsetGroup :=
      { tg with Toolsets := mapInsert tg.Toolsets k { ts with Enabled := true } } with htg1
    have hred : enableAll tg (k :: rest) = enableAll tg1 rest := by
      simp [enableAll, EnableToolset_found tg k ts hts, htg1]
    have hlook1 : ∀ n, mapLookup tg1.Toolsets n
        = if k = n then some { ts with Enabled := true } else mapLookup tg.Toolsets n := by
      intro n; simp [htg1, mapLookup_insert]
    have hrest : ∀ n ∈ rest, (mapLookup tg1.Toolsets n).isSome = true := by
      intro n hn
      rw [hlook1 n]
      by_cases h : k = n
      · simp [h]
      · simp [h]; exact hks n (List.mem_cons_of_mem k hn)
    obtain ⟨ih1, ih2, ih3, ih4⟩ := ih tg1 hrest
    rw [hred]
    refine ⟨ih1, ?_, ?_, ?_⟩
    · rw [ih2]
    · intro n hn
      have hnk : ¬ k = n := fun h => hn (h ▸ List.mem_cons_self k rest)
      have hnr : n ∉ rest := fun h => hn (List.mem_cons_of_mem k h)
      rw [ih3 n hnr, hlook1 n, if_neg hnk]
    · intro n hn
      rcases List.mem_cons.mp hn with h | h
      · subst h
        by_cases hr : n ∈ rest
        · exact ih4 n hr
        · refine ⟨{ ts with Enabled := true }, ?_, rfl⟩
          rw [ih3 n hr, hlook1 n, if_pos rfl]
      · exact ih4 n h

/-- C3: if the list passed to EnableToolsets contains "all" and the call
succeeds, every toolset stored in the group is enabled and IsEnabled is
true for every name whatsoever, registered or not. -/
theorem enable_toolsets_all (tg : ToolsetGroup) (names : List String)
    (hall : "all" ∈ names)
    (hok : (tg.EnableToolsets names).2 = none) :
    (∀ n ts, mapLookup (tg.EnableToolsets names).1.Toolsets n = some ts →
      ts.Enabled = true)
    ∧ (∀ name, (tg.EnableToolsets names).1.IsEnabled name = true) := by
  rcases hl : enableLoop tg names with ⟨tg1, e⟩
  rcases e with _ | e
  · have hev : tg1.everythingOn = true := by
      have := enableLoop_all_everythingOn names tg hall
      rw [hl] at this; exact this rfl
    have hred : tg.EnableToolsets names = enableAll tg1 (tg1.Toolsets.map Prod.fst) := by
      simp [ToolsetGroup.EnableToolsets, hl, hev]
    obtain ⟨h1, h2, h3, h4⟩ := enableAll_spec (tg1.Toolsets.map Prod.fst) tg1
      (fun k hk => mapLookup_isSome_of_mem_keys tg1.Toolsets k hk)
    rw [hred]
    constructor
    · intro n ts hts
      by_cases hn : n ∈ tg1.Toolsets.map Prod.fst
      · obtain ⟨ts1, hts1, he⟩ := h4 n hn
        rw [hts] at hts1
        cases hts1
        exact he
      · rw [h3 n hn, (mapLookup_none_iff tg1.Toolsets n).mpr hn] at hts
        cases hts
    · intro name
      have : (enableAll tg1 (tg1.Toolsets.map Prod.fst)).1.everythingOn = true := by
        rw [h2]; exact hev
      simp [ToolsetGroup.IsEnabled, this]
  · have : tg.EnableToolsets names = (tg1, some e) := by
      simp [ToolsetGroup.EnableToolsets, hl]
    rw [this] at hok
    simp at hok

/-- Witness for the C3 theorem: a group with one disabled toolset, enabled
via "all". -/
theorem enable_toolsets_all_witness :
    (((NewToolsetGroup false).AddToolset
        (NewToolset "a" "")).EnableToolsets ["all"]).1.IsEnabled "anything" = true := by
  have h := enable_toolsets_all ((NewToolsetGroup false).AddToolset (NewToolset "a" ""))
    ["all"] (by decide) (by decide)
  exact h.2 "anything"

theorem enableLoop_prefix_ok (pre : List String) :
    ∀ (rest : List String) (tg : ToolsetGroup),
      (∀ n ∈ pre, n ≠ "all" ∧ (mapLookup tg.Toolsets n).isSome = true) →
      ∃ tg1, enableLoop tg (pre ++ rest) = enableLoop tg1 rest
        ∧ tg1.everythingOn = tg.everythingOn
        ∧ (∀ n ∈ pre, ∃ ts, mapLookup tg1.Toolsets n = some ts ∧ ts.Enabled = true)
        ∧ (∀ n, (mapLookup tg1.Toolsets n).isSome = (mapLookup tg.Toolsets n).isSome)
        ∧ (∀ n, mapLookup tg1.Toolsets n = mapLookup tg.Toolsets n
             ∨ ∃ ts, mapLookup tg1.Toolsets n = some ts ∧ ts.Enabled = true) := by
  induction pre with
  | nil =>
    intro rest tg _
    exact ⟨tg, rfl, rfl, by simp, fun n => rfl, fun n => Or.inl rfl⟩
  | cons p pre ih =>
    intro rest tg hpre
    obtain ⟨hpall, hpsome⟩ := hpre p (List.mem_cons_self p pre)
    obtain ⟨ts, hts⟩ : ∃ ts, mapLookup tg.Toolsets p = some ts := by
      rcases hl : mapLookup tg.Toolsets p with _ | ts
      · rw [hl] at hpsome; simp at hpsome
      · exact ⟨ts, rfl⟩
    set tgp : ToolsetGroup :=
      { tg with Toolsets := mapInsert tg.Toolsets p { ts with Enabled := true } } with htgp
    have hlookp : ∀ n, mapLookup tgp.Toolsets n
        = if p = n then some { ts with Enabled := true } else mapLookup tg.Toolsets n := by
      intro n; simp [htgp, mapLookup_insert]
    have hred : enableLoop tg ((p :: pre) ++ rest) = enableLoop tgp (pre ++ rest) := by
      simp [enableLoop, hpall, EnableToolset_found tg p ts hts, htgp]
    have hpre1 : ∀ n ∈ pre, n ≠ "all" ∧ (mapLookup tgp.Toolsets n).isSome = true := by
      intro n hn
      obtain ⟨h1, h2⟩ := hpre n (List.mem_cons_of_mem p hn)
      refine ⟨h1, ?_⟩
      rw [hlookp n]
      by_cases h : p = n
      · simp [h]
      · simp [h]; exact h2
    obtain ⟨tg1, e1, e2, e3, e4, e5⟩ := ih rest tgp hpre1
    refine ⟨tg1, by rw [hred, e1], by rw [e2], ?_, ?_, ?_⟩
    · intro n hn
      rcases List.mem_cons.mp hn with h | h
      · subst h
        rcases e5 n with h5 | h5
        · refine ⟨{ ts with Enabled := true }, ?_, rfl⟩
          rw [h5, hlookp n, if_pos rfl]
        · exact h5
      · exact e3 n h
    · intro n
      rw [e4 n, hlookp n]
      by_cases h : p = n
      · subst h; simp [hts]
      · simp [h]
    · intro n
      rcases e5 n with h5 | h5
      · rw [h5, hlookp n]
        by_cases h : p = n
        · exact Or.inr ⟨{ ts with Enabled := true }, by rw [if_pos h], rfl⟩
        · exact Or.inl (by rw [if_neg h])
      · exact Or.inr h5

/-- C4: EnableToolset errors exactly on names absent from the map, and
EnableToolsets walks the names in order: with a list of known, non-"all"
names followed by an unknown name, the unknown name's error is returned,
"all" never takes effect even when present later in the list, and the
names enabled before the failure stay enabled. -/
theorem enable_toolsets_first_error (tg : ToolsetGroup) (name bad : String)
    (pre post : List String)
    (hpre : ∀ n ∈ pre, n ≠ "all" ∧ (mapLookup tg.Toolsets n).isSome = true)
    (hbad : mapLookup tg.Toolsets bad = none) (hbadall : bad ≠ "all")
    (hev : tg.everythingOn = false) :
    ((tg.EnableToolset name).2.isSome = true ↔ mapLookup tg.Toolsets name = none)
    ∧ (tg.EnableToolsets (pre ++ bad :: post)).2
        = some ("toolset " ++ bad ++ " does not exist")
    ∧ (tg.EnableToolsets (pre ++ bad :: post)).1.everythingOn = false
    ∧ (∀ n ∈ pre, ∃ ts,
        mapLookup (tg.EnableToolsets (pre ++ bad :: post)).1.Toolsets n = some ts
        ∧ ts.Enabled = true) := by
  obtain ⟨tg1, e1, e2, e3, e4, e5⟩ := enableLoop_prefix_ok pre (bad :: post) tg hpre
  have hbad1 : mapLookup tg1.Toolsets bad = none := by
    rcases hl : mapLookup tg1.Toolsets bad with _ | ts
    · rfl
    · have := e4 bad
      rw [hl, hbad] at this
      simp at this
  have hloop : enableLoop tg (pre ++ bad :: post)
      = (tg1, some ("toolset " ++ bad ++ " does not exist")) := by
    rw [e1]
    simp [enableLoop, hbadall, EnableToolset_missing tg1 bad hbad1]
  have hred : tg.EnableToolsets (pre ++ bad :: post)
      = (tg1, some ("toolset " ++ bad ++ " does not exist")) := by
    simp [ToolsetGroup.EnableToolsets, hloop]
  refine ⟨?_, by rw [hred], by rw [hred]; rw [e2]; exact hev, ?_⟩
  · rcases hl : mapLookup tg.Toolsets name with _ | ts
    · simp [EnableToolset_missing tg name hl]
    · simp [EnableToolset_found tg name ts hl, hl]
  · intro n hn
    rw [hred]
    exact e3 n hn

/-- Witness for the C4 theorem: a group with toolsets "a" and "b"; the
list enables "a", fails on "nope", and the later "all" is ignored. -/
theorem enable_toolsets_first_error_witness :
    ((((NewToolsetGroup false).AddToolset (NewToolset "a" "")).AddToolset
        (NewToolset "b" "")).EnableToolsets ["a", "nope", "all"]).2
      = some "toolset nope does not exist" := by
  have h := enable_toolsets_first_error
    (((NewToolsetGroup false).AddToolset (NewToolset "a" "")).AddToolset
      (NewToolset "b" ""))
    "a" "nope" ["a"] ["all"] (by decide) (by decide) (by decide) (by decide)
  exact h.2.1

theorem applyOps_preserves_readonly (ops : List ToolsetOp) :
    ∀ t : Toolset, t.readOnly = true →
      (applyOps t ops).readOnly = true
      ∧ (applyOps t ops).writeTools = t.writeTools := by
  induction ops with
  | nil => intro t h; exact ⟨h, rfl⟩
  | cons op rest ih =>
    intro t h
    have hstep : (applyOp t op).readOnly = true ∧ (applyOp t op).writeTools = t.writeTools := by
      cases op with
      | addRead tool => exact ⟨h, rfl⟩
      | addWrite tool => simp [applyOp, Toolset.AddWriteTool, h]
      | register => exact ⟨h, rfl⟩
    obtain ⟨h1, h2⟩ := ih (applyOp t op) hstep.1
    exact ⟨h1, by rw [applyOps] at h2 ⊢; simp [List.foldl] at h2 ⊢; rw [h2, hstep.2]⟩

/-- C9 counterexample: a toolset that receives a write tool before it is
added to a read-only group ends up stored in the group read-only and with
a non-empty writeTools slice, because SetReadOnly does not clear tools
that AddWriteTool stored earlier. -/
theorem readonly_toolset_holding_write_tool :
    (mapLookup ((NewToolsetGroup true).AddToolset
        ((NewToolset "t" "d").AddWriteTool ⟨"w"⟩)).Toolsets "t").map
      (fun ts => (ts.readOnly, ts.writeTools)) = some (true, [⟨"w"⟩]) := by
  decide

/-- C9 amended: AddToolset on a read-only group switches the toolset to
read-only before inserting it, and once a toolset is read-only AddWriteTool
discards its argument, so a toolset whose writeTools slice is empty when it
joins a read-only group keeps an empty writeTools slice under every
subsequent sequence of AddReadTool/AddWriteTool/RegisterTools operations;
write tools stored before the toolset joined remain (see the
counterexample), though RegisterTools never registers them while the
toolset is read-only. -/
theorem readonly_group_write_tools_stay_empty (tg : ToolsetGroup) (ts : Toolset)
    (ops : List ToolsetOp) (hro : tg.readOnly = true) (hempty : ts.writeTools = []) :
    mapLookup (tg.AddToolset ts).Toolsets ts.Name = some ts.SetReadOnly
    ∧ ts.SetReadOnly.readOnly = true
    ∧ (applyOps ts.SetReadOnly ops).writeTools = [] := by
  refine ⟨?_, rfl, ?_⟩
  · simp [ToolsetGroup.AddToolset, hro, Toolset.SetReadOnly, mapLookup_insert]
  · rw [(applyOps_preserves_readonly ops ts.SetReadOnly rfl).2]
    simpa [Toolset.SetReadOnly] using hempty

/-- Witness for the C9 amended theorem at a concrete group, toolset and
operation sequence. -/
theorem readonly_group_write_tools_stay_empty_witness :
    (applyOps (NewToolset "t" "d").SetReadOnly
      [.addRead ⟨"r"⟩, .addWrite ⟨"w"⟩, .register]).writeTools = [] := by
  exact (readonly_group_write_tools_stay_empty (NewToolsetGroup true) (NewToolset "t" "d")
    [.addRead ⟨"r"⟩, .addWrite ⟨"w"⟩, .register] (by decide) (by decide)).2.2

/-- C1 (code bug): with the global read-only flag set and the default
"all" toolsets, registering the group built by InitToolsets with the MCP
server succeeds and registers exactly the twelve tools InitToolsets lists
as read tools — a list that contains the mutating `scale_deployment`
(InitToolsets passes ScaleDeployment to AddReadTools as well as to
AddWriteTools), while `delete_pod` is correctly suppressed. -/
theorem readonly_group_registers_scale_deployment :
    (InitToolsets ["all"] true).2 = none
    ∧ ((InitToolsets ["all"] true).1.map fun tg =>
        (tg.RegisterTools []).map ServerTool.toolName)
      = some ["get_pod", "list_pods", "get_pod_logs", "get_deployment",
              "list_deployments", "scale_deployment", "get_service", "list_services",
              "get_configmap", "list_configmaps", "list_namespaces", "list_nodes"]
    ∧ "scale_deployment" ∈ (((InitToolsets ["all"] true).1.map fun tg =>
        (tg.RegisterTools []).map ServerTool.toolName).getD [])
    ∧ "delete_pod" ∉ (((InitToolsets ["all"] true).1.map fun tg =>
        (tg.RegisterTools []).map ServerTool.toolName).getD []) := by
  refine ⟨rfl, rfl, by decide, by decide⟩

theorem ratTrunc_intCast (n : ℤ) : ratTrunc (n : ℚ) = n := by
  unfold ratTrunc
  by_cases h : (0 : ℚ) ≤ (n : ℚ)
  · rw [if_pos h, Int.floor_intCast]
  · rw [if_neg h, Int.ceil_intCast]

theorem goInt32ofFloat_bounds (q : ℚ) :
    i32min ≤ goInt32ofFloat q ∧ goInt32ofFloat q ≤ i32max := by
  unfold goInt32ofFloat
  by_cases h1 : ratTrunc q < i32min
  · rw [if_pos h1]; exact ⟨le_refl _, by decide⟩
  · rw [if_neg h1]
    by_cases h2 : i32max < ratTrunc q
    · rw [if_pos h2]; exact ⟨by decide, le_refl _⟩
    · rw [if_neg h2]; omega

theorem goInt32_roundtrip_iff (q : ℚ) :
    ((goInt32ofFloat q : ℚ) = q) ↔ Int32Exact q := by
  constructor
  · intro h
    have hden : q.den = 1 := by
      have hd := congrArg Rat.den h
      rw [Rat.den_intCast] at hd
      exact hd.symm
    have hnum : q.num = goInt32ofFloat q := by
      have hn := congrArg Rat.num h
      rw [Rat.num_intCast] at hn
      exact hn.symm
    obtain ⟨hb1, hb2⟩ := goInt32ofFloat_bounds q
    exact ⟨hden, by rw [hnum]; exact hb1, by rw [hnum]; exact hb2⟩
  · rintro ⟨hden, h1, h2⟩
    have hq : (q.num : ℚ) = q := (Rat.den_eq_one_iff q).mp hden
    have htr : ratTrunc q = q.num := by
      rw [← hq, ratTrunc_intCast, Rat.num_intCast]
    have hgo : goInt32ofFloat q = q.num := by
      unfold goInt32ofFloat
      rw [htr, if_neg (by omega), if_neg (by omega)]
    rw [hgo, hq]

theorem GetPodHandler_dichotomy {α : Type} (gc : Except String Unit)
    (podGet : String → String → Except String α)
    (marshal : α → Except String String) (req : Request) :
    ResultErrorDichotomy (GetPodHandler gc podGet marshal req).1 := by
  unfold GetPodHandler
  repeat' split
  all_goals simp [ResultErrorDichotomy]

theorem ListNamespacesHandler_dichotomy {β : Type} (gc : Except String Unit)
    (nsList : String → String → Except String β)
    (marshalL : β → Except String String) (req : Request) :
    ResultErrorDichotomy (ListNamespacesHandler gc nsList marshalL req).1 := by
  unfold ListNamespacesHandler
  repeat' split
  all_goals simp [ResultErrorDichotomy]

theorem ScaleDeploymentHandler_dichotomy (gc : Except String Unit)
    (deployGet : String → String → Except String Deployment)
    (deployUpdate : String → Deployment → Except String Deployment)
    (marshalD : Deployment → Except String String) (req : Request) :
    ResultErrorDichotomy (ScaleDeploymentHandler gc deployGet deployUpdate marshalD req).1 := by
  simp only [ScaleDeploymentHandler]
  repeat' split
  all_goals simp [ResultErrorDichotomy]

theorem DeletePodHandler_dichotomy (gc : Except String Unit)
    (podDelete : String → String → Option Int → Except String Unit) (req : Request) :
    ResultErrorDichotomy (DeletePodHandler gc podDelete req).1 := by
  simp only [DeletePodHandler]
  repeat' split
  all_goals simp [ResultErrorDichotomy]

/-- C5: every modelled handler is a total function of the argument map
(no panic) returning exactly one of a non-nil result and a non-nil Go
error; parameter failures and failed Kubernetes API calls yield an error
envelope with a nil Go error, while client-acquisition and marshalling
failures yield a nil result with a non-nil Go error (spelled out on the
get_pod handler, whose body is shared by the remaining handlers). -/
theorem handler_error_convention {α β : Type} (gc : Except String Unit)
    (podGet : String → String → Except String α)
    (marshal : α → Except String String)
    (nsList : String → String → Except String β)
    (marshalL : β → Except String String)
    (deployGet : String → String → Except String Deployment)
    (deployUpdate : String → Deployment → Except String Deployment)
    (marshalD : Deployment → Except String String)
    (podDelete : String → String → Option Int → Except String Unit)
    (req : Request) :
    ResultErrorDichotomy (GetPodHandler gc podGet marshal req).1
    ∧ ResultErrorDichotomy (ListNamespacesHandler gc nsList marshalL req).1
    ∧ ResultErrorDichotomy (ScaleDeploymentHandler gc deployGet deployUpdate marshalD req).1
    ∧ ResultErrorDichotomy (DeletePodHandler gc podDelete req).1
    ∧ (∀ e, RequiredParamString req "namespace" = .error e →
        GetPodHandler gc podGet marshal req = ((some (.errorResult e), none), []))
    ∧ (∀ ns e, RequiredParamString req "namespace" = .ok ns →
        RequiredParamString req "name" = .error e →
        GetPodHandler gc podGet marshal req = ((some (.errorResult e), none), []))
    ∧ (∀ ns nm e, RequiredParamString req "namespace" = .ok ns →
        RequiredParamString req "name" = .ok nm → gc = .error e →
        GetPodHandler gc podGet marshal req
          = ((none, some ("failed to get Kubernetes client: " ++ e)), []))
    ∧ (∀ ns nm e, RequiredParamString req "namespace" = .ok ns →
        RequiredParamString req "name" = .ok nm → gc = .ok () →
        podGet ns nm = .error e →
        GetPodHandler gc podGet marshal req
          = ((some (.errorResult ("failed to get pod: " ++ e)), none), [.podGet ns nm]))
    ∧ (∀ ns nm pod e, RequiredParamString req "namespace" = .ok ns →
        RequiredParamString req "name" = .ok nm → gc = .ok () →
        podGet ns nm = .ok pod → marshal pod = .error e →
        GetPodHandler gc podGet marshal req
          = ((none, some ("failed to marshal response: " ++ e)), [.podGet ns nm])) := by
  refine ⟨GetPodHandler_dichotomy gc podGet marshal req,
    ListNamespacesHandler_dichotomy gc nsList marshalL req,
    ScaleDeploymentHandler_dichotomy gc deployGet deployUpdate marshalD req,
    DeletePodHandler_dichotomy gc podDelete req, ?_, ?_, ?_, ?_, ?_⟩
  · intro e h; simp [GetPodHandler, h]
  · intro ns e h1 h2; simp [GetPodHandler, h1, h2]
  · intro ns nm e h1 h2 h3; simp [GetPodHandler, h1, h2, h3]
  · intro ns nm e h1 h2 h3 h4; simp [GetPodHandler, h1, h2, h3, h4]
  · intro ns nm pod e h1 h2 h3 h4 h5; simp [GetPodHandler, h1, h2, h3, h4, h5]

/-- Witness for the C5 theorem: the get_pod handler on a request missing
the name argument. -/
theorem handler_error_convention_witness :
    GetPodHandler (α := Unit) (.ok ()) (fun _ _ => .ok ()) (fun _ => .ok "x")
      [("namespace", .str "ns")]
      = ((some (.errorResult "missing required parameter: name"), none), []) := by
  have h := handler_error_convention (α := Unit) (β := Unit) (.ok ())
    (fun _ _ => .ok ()) (fun _ => .ok "x") (fun _ _ => .ok ()) (fun _ => .ok "x")
    (fun _ _ => .error "e") (fun _ _ => .error "e") (fun _ => .ok "x")
    (fun _ _ _ => .ok ()) [("namespace", .str "ns")]
  exact h.2.2.2.2.2.1 "ns" "missing required parameter: name" (by rfl) (by rfl)

/-- C6: when parameter extraction, the client call and marshalling all
succeed, a get/list handler returns the text envelope holding exactly the
serialization of the object the single client call returned, and the call
trace contains exactly that one call. -/
theorem get_list_exact_serialization {α β : Type}
    (podGet : String → String → Except String α)
    (marshal : α → Except String String)
    (nsList : String → String → Except String β)
    (marshalL : β → Except String String)
    (req : Request) (ns nm fs ls s1 s2 : String) (pod : α) (obj : β)
    (hns : RequiredParamString req "namespace" = .ok ns)
    (hnm : RequiredParamString req "name" = .ok nm)
    (hpod : podGet ns nm = .ok pod)
    (hm1 : marshal pod = .ok s1)
    (hfs : OptionalParamString req "fieldSelector" = .ok fs)
    (hls : OptionalParamString req "labelSelector" = .ok ls)
    (hobj : nsList fs ls = .ok obj)
    (hm2 : marshalL obj = .ok s2) :
    GetPodHandler (.ok ()) podGet marshal req
      = ((some (.textResult s1), none), [.podGet ns nm])
    ∧ ListNamespacesHandler (.ok ()) nsList marshalL req
      = ((some (.textResult s2), none), [.namespaceList fs ls]) := by
  constructor
  · simp [GetPodHandler, hns, hnm, hpod, hm1]
  · simp [ListNamespacesHandler, hfs, hls, hobj, hm2]

/-- Witness for the C6 theorem at a concrete request and client. -/
theorem get_list_exact_serialization_witness :
    GetPodHandler (α := String) (.ok ()) (fun _ _ => .ok "podobj") (fun s => .ok (s ++ "!"))
      [("namespace", .str "ns"), ("name", .str "p")]
      = ((some (.textResult "podobj!"), none), [.podGet "ns" "p"]) := by
  have h := get_list_exact_serialization (α := String) (β := Unit)
    (fun _ _ => .ok "podobj") (fun s => .ok (s ++ "!")) (fun _ _ => .ok ()) (fun _ => .ok "y")
    [("namespace", .str "ns"), ("name", .str "p")]
    "ns" "p" "" "" "podobj!" "y" "podobj" ()
    (by rfl) (by rfl) (by rfl) (by rfl) (by rfl) (by rfl) (by rfl) (by rfl)
  exact h.1

theorem RequiredParamFloat_num (req : Request) (p : String) (q : ℚ)
    (h : lookupArg req p = some (.num q)) (h0 : q ≠ 0) :
    RequiredParamFloat req p = .ok q := by
  simp [RequiredParamFloat, h, h0]

/-- C7 counterexample: replicas = 0 is exactly representable as an int32
(second conjunct), yet the handler issues no Kubernetes call and answers
with a missing-parameter envelope instead of fetching and updating the
deployment, because the modelled RequiredParam rejects the float64 zero
value. -/
theorem scale_zero_replicas_rejected :
    ScaleDeploymentHandler (.ok ()) (fun _ _ => .ok ⟨some 3, "rest"⟩)
      (fun _ d => .ok d) (fun d => .ok d.payload)
      [("namespace", .str "ns"), ("name", .str "d"), ("replicas", .num 0)]
      = ((some (.errorResult "missing required parameter: replicas"), none), [])
    ∧ Int32Exact 0 := by
  exact ⟨by rfl, by constructor <;> decide⟩

/-- C7 amended: for a request whose replicas argument is a nonzero
float64, the handler answers "replicas must be an integer" without
issuing any Kubernetes call exactly when the value does not survive the
round-trip through int32; when it does survive, the handler fetches the
deployment, sets Spec.Replicas to the truncated value, issues exactly one
Update with it, and returns the JSON of the updated deployment. A zero
replicas argument never reaches this logic (see the counterexample). -/
theorem scale_replicas_validation
    (deployGet : String → String → Except String Deployment)
    (deployUpdate : String → Deployment → Except String Deployment)
    (marshalD : Deployment → Except String String)
    (req : Request) (ns nm : String) (q : ℚ)
    (hns : RequiredParamString req "namespace" = .ok ns)
    (hnm : RequiredParamString req "name" = .ok nm)
    (hq : lookupArg req "replicas" = some (.num q)) (hq0 : q ≠ 0) :
    (¬ Int32Exact q → ∀ gc,
      ScaleDeploymentHandler gc deployGet deployUpdate marshalD req
        = ((some (.errorResult "replicas must be an integer"), none), []))
    ∧ (Int32Exact q → ∀ d ud s,
        deployGet ns nm = .ok d →
        deployUpdate ns { d with replicas := some (goInt32ofFloat q) } = .ok ud →
        marshalD ud = .ok s →
        ScaleDeploymentHandler (.ok ()) deployGet deployUpdate marshalD req
          = ((some (.textResult s), none),
             [.deploymentGet ns nm,
              .deploymentUpdate ns { d with replicas := some (goInt32ofFloat q) }])) := by
  have hrep : RequiredParamFloat req "replicas" = .ok q :=
    RequiredParamFloat_num req "replicas" q hq hq0
  constructor
  · intro hne gc
    have hne2 : ¬ ((goInt32ofFloat q : ℚ) = q) := fun h =>
      hne ((goInt32_roundtrip_iff q).mp h)
    simp [ScaleDeploymentHandler, hns, hnm, hrep, hne2]
  · intro hex d ud s hd hu hm
    have heq : (goInt32ofFloat q : ℚ) = q := (goInt32_roundtrip_iff q).mpr hex
    simp [ScaleDeploymentHandler, hns, hnm, hrep, heq, hd, hu, hm]

/-- Witness for the C7 amended theorem: replicas = 2.5 is rejected with
"replicas must be an integer" and no client call. -/
theorem scale_replicas_validation_witness :
    ScaleDeploymentHandler (.ok ()) (fun _ _ => .ok ⟨some 3, "rest"⟩)
      (fun _ d => .ok d) (fun d => .ok d.payload)
      [("namespace", .str "ns"), ("name", .str "d"), ("replicas", .num (5 / 2))]
      = ((some (.errorResult "replicas must be an integer"), none), []) := by
  have h := scale_replicas_validation (fun _ _ => .ok ⟨some 3, "rest"⟩)
    (fun _ d => .ok d) (fun d => .ok d.payload)
    [("namespace", .str "ns"), ("name", .str "d"), ("replicas", .num (5 / 2))]
    "ns" "d" (5 / 2) (by rfl) (by rfl) (by rfl) (by norm_num)
  exact h.1 (by rw [Int32Exact]; norm_num) (.ok ())

/-- C8: the modelled RequiredParam reports an argument equal to the empty
string with the same missing-parameter error as an absent argument, and
the get_pod handler therefore answers the same error envelope whether the
required namespace argument is the empty string or missing. -/
theorem required_param_rejects_empty_string {α : Type} (req : Request) (p : String)
    (gc : Except String Unit) (podGet : String → String → Except String α)
    (marshal : α → Except String String) :
    (lookupArg req p = some (.str "") →
      RequiredParamString req p = .error ("missing required parameter: " ++ p))
    ∧ (lookupArg req p = none →
      RequiredParamString req p = .error ("missing required parameter: " ++ p))
    ∧ (lookupArg req "namespace" = some (.str "") →
      GetPodHandler gc podGet marshal req
        = ((some (.errorResult "missing required parameter: namespace"), none), []))
    ∧ (lookupArg req "namespace" = none →
      GetPodHandler gc podGet marshal req
        = ((some (.errorResult "missing required parameter: namespace"), none), [])) := by
  refine ⟨?_, ?_, ?_, ?_⟩
  · intro h; simp [RequiredParamString, h]
  · intro h; simp [RequiredParamString, h]
  · intro h
    have : RequiredParamString req "namespace"
        = .error "missing required parameter: namespace" := by
      simp [RequiredParamString, h]
    simp [GetPodHandler, this]
  · intro h
    have : RequiredParamString req "namespace"
        = .error "missing required parameter: namespace" := by
      simp [RequiredParamString, h]
    simp [GetPodHandler, this]

/-- Witness for the C8 theorem: explicit empty namespace at a concrete
request. -/
theorem required_param_rejects_empty_string_witness :
    GetPodHandler (α := String) (.ok ()) (fun _ _ => .ok "pod") (fun s => .ok s)
      [("namespace", .str ""), ("name", .str "p")]
      = ((some (.errorResult "missing required parameter: namespace"), none), []) := by
  have h := required_param_rejects_empty_string (α := String)
    [("namespace", .str ""), ("name", .str "p")] "namespace" (.ok ())
    (fun _ _ => .ok "pod") (fun s => .ok s)
  exact h.2.2.1 (by rfl)

/-- C10: the delete_pod tool in resources.go declares gracePeriodSeconds
as a Boolean in the schema but extracts it as an int64 (a float64-valued
argument is a type error); the Delete call carries a GracePeriodSeconds
value exactly when the extracted value is positive; and a request without
gracePeriodSeconds deletes with empty options and reports the fixed
success text. -/
theorem delete_pod_grace_period
    (podDelete : String → String → Option Int → Except String Unit)
    (req : Request) (ns nm : String)
    (hns : RequiredParamString req "namespace" = .ok ns)
    (hnm : RequiredParamString req "name" = .ok nm) :
    (ParamSpec.mk "gracePeriodSeconds" .booleanT false ∈ deletePodToolParams)
    ∧ (∀ n : Int, lookupArg req "gracePeriodSeconds" = some (.intVal n) →
        (DeletePodHandler (.ok ()) podDelete req).2
          = [.podDelete ns nm (if 0 < n then some n else none)])
    ∧ (∀ q : ℚ, lookupArg req "gracePeriodSeconds" = some (.num q) →
        DeletePodHandler (.ok ()) podDelete req
          = ((some (.errorResult "parameter gracePeriodSeconds is not of type int64"),
              none), []))
    ∧ (lookupArg req "gracePeriodSeconds" = none → podDelete ns nm none = .ok () →
        DeletePodHandler (.ok ()) podDelete req
          = ((some (.textResult
              ("Pod " ++ nm ++ " in namespace " ++ ns ++ " deleted successfully")), none),
             [.podDelete ns nm none])) := by
  refine ⟨by decide, ?_, ?_, ?_⟩
  · intro n h
    have hopt : OptionalParamInt64 req "gracePeriodSeconds" = .ok n := by
      simp [OptionalParamInt64, h]
    rcases hres : podDelete ns nm (if 0 < n then some n else none) with e | u
    · simp [DeletePodHandler, hns, hnm, hopt, hres]
    · simp [DeletePodHandler, hns, hnm, hopt, hres]
  · intro q h
    have hopt : OptionalParamInt64 req "gracePeriodSeconds"
        = .error "parameter gracePeriodSeconds is not of type int64" := by
      simp [OptionalParamInt64, h]
    simp [DeletePodHandler, hns, hnm, hopt]
  · intro h hdel
    have hopt : OptionalParamInt64 req "gracePeriodSeconds" = .ok 0 := by
      simp [OptionalParamInt64, h]
    simp [DeletePodHandler, hns, hnm, hopt, hdel]

/-- Witness for the C10 theorem: delete_pod without gracePeriodSeconds on
a concrete request. -/
theorem delete_pod_grace_period_witness :
    DeletePodHandler (.ok ()) (fun _ _ _ => .ok ())
      [("namespace", .str "ns"), ("name", .str "p")]
      = ((some (.textResult "Pod p in namespace ns deleted successfully"), none),
         [.podDelete "ns" "p" none]) := by
  have h := delete_pod_grace_period (fun _ _ _ => .ok ())
    [("namespace", .str "ns"), ("name", .str "p")] "ns" "p" (by rfl) (by rfl)
  simpa using h.2.2.2 (by rfl) (by rfl)

end K8sMCP
